import Mathlib

set_option maxHeartbeats 1000000

/-!
Shallow embedding of the quiz session engine of the
aws-certifications-practice repository.

Sources embedded here:
* `client/src/components` bundle (`Pagination.tsx`): the Fisher-Yates
  `shuffleArray`, the `MockTest` component state machine (`initializeTest`,
  `handleAnswer`, `nextQuestion`, `goToQuestion`, `previousQuestion`,
  `toggleFlag`, the one-second timer effect, `completeTest`,
  `calculateTimeLimit`, `getCurrentProgress`), and the `StudyMode`
  shuffled-choices effect;
* `client/src/components/QuestionCard.tsx`: choice filtering and the
  `isCorrect` scoring rule;
* `server/routes/progress.js` together with
  `server/database/init/01-schema.sql`: the `POST /study` upsert on
  `user_progress` and the `POST /mock-test` transaction on
  `mock_test_results` / `mock_test_answers`.

Answer labels are single characters (the source splits `correct_answer`
with `split('')`), so labels are modelled as `Char`.  Randomness
(`Math.random`) is modelled by an arbitrary function `rand : ℕ → ℕ`; the
draw at loop index `i` is `rand i % (i + 1)`, which ranges over `[0, i]`
exactly as `Math.floor(Math.random() * (i + 1))` does.  Timestamps
(`Date.now()`) are naturals counting milliseconds.
-/

/-- A question as delivered by the question source (`types.ts` shape used by
the components): `choices` is the entry list of the choices object, keyed by
single-character labels. -/
structure Question where
  question_id : String
  question_text : String
  choices : List (Char × String)
  correct_answer : String
deriving Repr, DecidableEq, Inhabited

/-- `ShuffledChoice` from `Pagination.tsx` / `QuestionCard.tsx`:
`{key, value}`. -/
structure ShuffledChoice where
  key : Char
  value : String
deriving Repr, DecidableEq, Inhabited

/-- The exact-match scoring formula used by `handleAnswer` in the `MockTest`
component (`Pagination.tsx`), and identically by `handleSubmit` /
`isCorrect` (multiple-answer branch) in `QuestionCard.tsx`:

`selectedAnswers.length === correctAnswers.length &&
 selectedAnswers.every(answer => correctAnswers.includes(answer))`. -/
def scoreAnswer (selectedAnswers correctAnswers : List Char) : Bool :=
  selectedAnswers.length == correctAnswers.length &&
    selectedAnswers.all (fun answer => correctAnswers.contains answer)

/-- The question classification from the source:
`isMultipleAnswer = correctAnswers.length > 1` where
`correctAnswers = question.correct_answer.split('')`. -/
def isMultipleAnswer (q : Question) : Bool :=
  decide (1 < q.correct_answer.toList.length)

/-- `isCorrect` from `QuestionCard.tsx` (lines 207-216): empty selection is
incorrect; multiple-answer questions use the exact-match formula;
single-answer questions compare the single selected label with the whole
`correct_answer` string. -/
def questionCardIsCorrect (q : Question) (selectedAnswers : List Char) : Bool :=
  if selectedAnswers.length == 0 then false
  else if isMultipleAnswer q then
    selectedAnswers.length == q.correct_answer.toList.length &&
      selectedAnswers.all (fun answer => q.correct_answer.toList.contains answer)
  else
    match selectedAnswers with
    | c :: _ => String.mk [c] == q.correct_answer
    | [] => false

/-- The in-range swap performed by
`[shuffled[i], shuffled[j]] = [shuffled[j], shuffled[i]]`. -/
def listSwap (l : List α) (i j : ℕ) : List α :=
  if h : i < l.length ∧ j < l.length then
    (l.set i (l.get ⟨j, h.2⟩)).set j (l.get ⟨i, h.1⟩)
  else l

/-- The descending loop of `shuffleArray`: `fisherYatesAux rand i l`
performs the swaps for indices `i, i-1, ..., 1`, drawing
`j = rand i % (i + 1) ∈ [0, i]` at index `i`. -/
def fisherYatesAux (rand : ℕ → ℕ) : ℕ → List α → List α
  | 0, l => l
  | i + 1, l => fisherYatesAux rand i (listSwap l (i + 1) (rand (i + 1) % (i + 2)))

/-- `shuffleArray` (defined identically in `Pagination.tsx` StudyMode,
`Pagination.tsx` MockTest and `QuestionCard.tsx`): copy the input
(`[...array]`, here value semantics) and run Fisher-Yates from the last
index down to 1. -/
def shuffleArray (rand : ℕ → ℕ) (array : List α) : List α :=
  fisherYatesAux rand (array.length - 1) array

lemma cons_perm_get_cons_set (x : α) :
    ∀ (t : List α) (j : ℕ) (hj : j < t.length),
      (x :: t).Perm (t.get ⟨j, hj⟩ :: t.set j x) := by
  intro t
  induction t with
  | nil => intro j hj; exact absurd hj (by simp)
  | cons a s ih =>
    intro j hj
    cases j with
    | zero =>
      simpa using List.Perm.swap a x s
    | succ k =>
      have hk : k < s.length := by simpa using hj
      have h1 : (x :: a :: s).Perm (a :: x :: s) := List.Perm.swap a x s
      have h2 : (a :: x :: s).Perm (a :: (s.get ⟨k, hk⟩ :: s.set k x)) :=
        (ih k hk).cons a
      have h3 : (a :: s.get ⟨k, hk⟩ :: s.set k x).Perm
          (s.get ⟨k, hk⟩ :: a :: s.set k x) := List.Perm.swap (s.get ⟨k, hk⟩) a _
      simpa using (h1.trans h2).trans h3

lemma set_set_swap_perm :
    ∀ (l : List α) (i j : ℕ) (hi : i < l.length) (hj : j < l.length),
      ((l.set i (l.get ⟨j, hj⟩)).set j (l.get ⟨i, hi⟩)).Perm l := by
  intro l
  induction l with
  | nil => intro i j hi _; exact absurd hi (by simp)
  | cons x t ih =>
    intro i j hi hj
    cases i with
    | zero =>
      cases j with
      | zero => simp
      | succ k =>
        have hk : k < t.length := by simpa using hj
        have := cons_perm_get_cons_set x t k hk
        simpa using this.symm
    | succ m =>
      cases j with
      | zero =>
        have hm : m < t.length := by simpa using hi
        have := cons_perm_get_cons_set x t m hm
        simpa using this.symm
      | succ k =>
        have hm : m < t.length := by simpa using hi
        have hk : k < t.length := by simpa using hj
        simpa using (ih m k hm hk).cons x

lemma listSwap_perm (l : List α) (i j : ℕ) : (listSwap l i j).Perm l := by
  unfold listSwap
  by_cases h : i < l.length ∧ j < l.length
  · rw [dif_pos h]
    exact set_set_swap_perm l i j h.1 h.2
  · rw [dif_neg h]

lemma fisherYatesAux_perm (rand : ℕ → ℕ) :
    ∀ (n : ℕ) (l : List α), (fisherYatesAux rand n l).Perm l := by
  intro n
  induction n with
  | zero => intro l; exact List.Perm.refl l
  | succ i ih =>
    intro l
    exact (ih _).trans (listSwap_perm l (i + 1) (rand (i + 1) % (i + 2)))

/-- C8: for every random source and every input sequence, `shuffleArray`
returns a permutation of the input (same multiset of elements).  The
embedding is pure, mirroring that the source copies the input with
`[...array]` before swapping, so the input list is never mutated; the loop
structure (last index down to 1, partner drawn in `[0, i]`) is the
definition of `fisherYatesAux`. -/
theorem shuffleArray_perm (rand : ℕ → ℕ) (array : List α) :
    (shuffleArray rand array).Perm array :=
  fisherYatesAux_perm rand (array.length - 1) array

/-- `calculateTimeLimit` from `Pagination.tsx` (MockTest, lines 717-727),
in exact rational arithmetic:
`totalSeconds = ceil((120/65) * numQuestions * 60)`, then round up to the
nearest 15 seconds. -/
def calculateTimeLimit (numQuestions : ℕ) : ℕ :=
  let totalSeconds : ℕ := ⌈(120 : ℚ) / 65 * numQuestions * 60⌉₊
  ⌈(totalSeconds : ℚ) / 15⌉₊ * 15

/-- Modelled from the spec's words, for comparison with the source
function: `ceil(ceil(120 min × questionCount / 65 × 60) / 15) × 15`. -/
def specTimeBudget (questionCount : ℕ) : ℕ :=
  ⌈((⌈(120 * (questionCount : ℚ)) / 65 * 60⌉₊ : ℚ)) / 15⌉₊ * 15

/-- C1: the scoring function is exact-match — true iff the selected and
correct label sets have identical size and identical membership
(order-independent) — and the same rule governs single- and
multiple-answer questions: the multiple-answer branch of
`QuestionCard.isCorrect` is literally the formula, and the single-answer
branch (whole-string comparison) agrees with the formula on its singleton
selections.  `isMultipleAnswer` is `|correct| > 1` as in the source. -/
theorem scoreAnswer_exact_match (sel cor : List Char) (q : Question)
    (hsel : sel.Nodup) :
    (scoreAnswer sel cor = true ↔
      sel.length = cor.length ∧ ∀ x, x ∈ sel ↔ x ∈ cor) ∧
    (isMultipleAnswer q = true →
      questionCardIsCorrect q sel = scoreAnswer sel q.correct_answer.toList) ∧
    (∀ c : Char, q.correct_answer.toList.length = 1 →
      questionCardIsCorrect q [c] = scoreAnswer [c] q.correct_answer.toList) := by
  refine ⟨?_, ?_, ?_⟩
  · unfold scoreAnswer
    rw [Bool.and_eq_true, beq_iff_eq, List.all_eq_true]
    constructor
    · rintro ⟨hlen, hall⟩
      refine ⟨hlen, fun x => ⟨fun hx => by simpa using hall x hx, fun hx => ?_⟩⟩
      have hsub : sel.toFinset ⊆ cor.toFinset := by
        intro y hy
        rw [List.mem_toFinset] at hy ⊢
        simpa using hall y hy
      have hcard : cor.toFinset.card ≤ sel.toFinset.card := by
        calc cor.toFinset.card ≤ cor.length := List.toFinset_card_le cor
          _ = sel.length := hlen.symm
          _ = sel.toFinset.card := (List.toFinset_card_of_nodup hsel).symm
      have heq : sel.toFinset = cor.toFinset :=
        Finset.eq_of_subset_of_card_le hsub hcard
      rw [← List.mem_toFinset] at hx ⊢
      rw [heq]
      exact hx
    · rintro ⟨hlen, hmem⟩
      exact ⟨hlen, fun x hx => by simpa using (hmem x).mp hx⟩
  · intro hmq
    cases sel with
    | nil =>
      have hlt : 1 < q.correct_answer.toList.length := by
        have h := hmq
        unfold isMultipleAnswer at h
        exact of_decide_eq_true h
      have h1 : questionCardIsCorrect q [] = false := rfl
      have h2 : scoreAnswer [] q.correct_answer.toList = false := by
        unfold scoreAnswer
        simp only [List.length_nil, List.all_nil, Bool.and_true]
        apply beq_eq_false_iff_ne.mpr
        omega
      rw [h1, h2]
    | cons c rest =>
      simp [questionCardIsCorrect, hmq, scoreAnswer]
  · intro c hone
    obtain ⟨a, ha⟩ := List.length_eq_one.mp hone
    have hq : q.correct_answer = String.mk [a] := by
      apply String.ext
      simpa [String.toList] using ha
    have hnm : isMultipleAnswer q = false := by
      unfold isMultipleAnswer
      rw [hone]
      rfl
    have hLHS : questionCardIsCorrect q [c] = (String.mk [c] == q.correct_answer) := by
      unfold questionCardIsCorrect
      rw [hnm]
      rfl
    rw [hLHS, ha, hq]
    by_cases hca : c = a
    · subst hca
      simp [scoreAnswer]
    · have h1 : (String.mk [c] == String.mk [a]) = false := by
        apply beq_eq_false_iff_ne.mpr
        intro hcontr
        exact hca (by simpa using congrArg String.data hcontr)
      have h2 : scoreAnswer [c] [a] = false := by
        simp [scoreAnswer, hca]
      rw [h1, h2]

/-- Witness for C1 at a concrete input: concatenated correct answer "AB"
matched by the selection B,A in reverse order. -/
theorem scoreAnswer_exact_match_witness :
    scoreAnswer ['B', 'A'] ['A', 'B'] = true :=
  (scoreAnswer_exact_match ['B', 'A'] ['A', 'B'] ⟨"q", "t", [], "AB"⟩
    (by decide)).1.mpr ⟨rfl, fun x => by simp only [List.mem_cons]; tauto⟩

/-- C3: the mock-session time budget is
`ceil(ceil(120·q/65·60)/15)·15` seconds for every question count `q`
(the source computes it in the same shape), with the spec's two sample
points `q = 65 ↦ 7200` and `q = 10 ↦ 1110`. -/
theorem calculateTimeLimit_spec :
    (∀ q : ℕ, calculateTimeLimit q = specTimeBudget q) ∧
    calculateTimeLimit 65 = 7200 ∧ calculateTimeLimit 10 = 1110 := by
  refine ⟨fun q => ?_, ?_, ?_⟩
  · unfold calculateTimeLimit specTimeBudget
    have h : (120 : ℚ) / 65 * q * 60 = 120 * (q : ℚ) / 65 * 60 := by ring
    rw [h]
  · unfold calculateTimeLimit
    have h1 : (120 : ℚ) / 65 * ((65 : ℕ) : ℚ) * 60 = 7200 := by norm_num
    rw [h1]
    norm_num
  · unfold calculateTimeLimit
    have h1 : (120 : ℚ) / 65 * ((10 : ℕ) : ℚ) * 60 = 14400 / 13 := by norm_num
    rw [h1]
    have h2 : (⌈(14400 : ℚ) / 13⌉₊ : ℕ) = 1108 := by
      rw [Nat.ceil_eq_iff (by norm_num)]
      norm_num
    rw [h2]
    have h3 : (⌈(1108 : ℚ) / 15⌉₊ : ℕ) = 74 := by
      rw [Nat.ceil_eq_iff (by norm_num)]
      norm_num
    norm_num [h3]

/-- `TestAnswer` from the MockTest component (`Pagination.tsx`). -/
structure TestAnswer where
  questionIndex : ℕ
  selectedAnswers : List Char
  isCorrect : Bool
  question : Question
  shuffledChoices : List ShuffledChoice
deriving Repr, DecidableEq

/-- One element of the `answers` array submitted by `completeTest` to
`POST /api/progress/mock-test`. -/
structure AnswerData where
  questionId : String
  userAnswer : String
  isCorrect : Bool
  timeTaken : ℕ
deriving Repr, DecidableEq

/-- The payload of `progressService.saveMockTestResults`. -/
structure MockSubmission where
  testId : String
  score : ℕ
  totalQuestions : ℕ
  timeSpent : ℕ
  answers : List AnswerData
deriving Repr, DecidableEq

/-- The state of the `MockTest` component: each field is one of its
`useState` hooks.  `testAnswers` models the sparse JS array indexed by
question index (`undefined` = `none`); `shuffledChoicesMap` models the
`Record<number, ShuffledChoice[]>` with the JS default `[]` for missing
keys; `submitted` records the payload handed to
`progressService.saveMockTestResults` by `completeTest` (`none` before
completion). -/
structure MockState where
  testId : String
  testQuestions : List Question
  currentQuestionIndex : ℕ
  testAnswers : ℕ → Option TestAnswer
  shuffledChoicesMap : ℕ → List ShuffledChoice
  flaggedQuestions : Finset ℕ
  skippedQuestions : Finset ℕ
  timeLeft : ℕ
  isTestStarted : Bool
  isTestCompleted : Bool
  showResults : Bool
  testStartTime : ℕ
  submitted : Option MockSubmission

/-- `handleAnswer` (`Pagination.tsx` lines 895-927): score the selection
against the current question, store the `TestAnswer` at the current index,
and if the selection is non-empty remove the index from the skipped set. -/
def handleAnswer (s : MockState) (selectedAnswers : List Char) : MockState :=
  let currentQuestion := s.testQuestions.getD s.currentQuestionIndex default
  let correctAnswers := currentQuestion.correct_answer.toList
  let isCorrect := scoreAnswer selectedAnswers correctAnswers
  let testAnswer : TestAnswer :=
    { questionIndex := s.currentQuestionIndex
      selectedAnswers := selectedAnswers
      isCorrect := isCorrect
      question := currentQuestion
      shuffledChoices := s.shuffledChoicesMap s.currentQuestionIndex }
  let s1 := { s with
    testAnswers := fun k =>
      if k = s.currentQuestionIndex then some testAnswer else s.testAnswers k }
  if 0 < selectedAnswers.length then
    { s1 with skippedQuestions := s1.skippedQuestions.erase s.currentQuestionIndex }
  else s1

/-- `!testAnswers[i] || testAnswers[i].selectedAnswers.length === 0`,
negated: the question at index `i` has a recorded non-empty answer. -/
def hasNonemptyAnswerAt (s : MockState) (i : ℕ) : Bool :=
  match s.testAnswers i with
  | some ta => decide (0 < ta.selectedAnswers.length)
  | none => false

/-- `nextQuestion` (`Pagination.tsx` lines 946-956): an unanswered current
question is added to the skipped set, then the cursor advances unless it is
on the last question. -/
def nextQuestion (s : MockState) : MockState :=
  let s1 :=
    if hasNonemptyAnswerAt s s.currentQuestionIndex then s
    else { s with skippedQuestions := insert s.currentQuestionIndex s.skippedQuestions }
  if s1.currentQuestionIndex < s1.testQuestions.length - 1 then
    { s1 with currentQuestionIndex := s1.currentQuestionIndex + 1 }
  else s1

/-- `goToQuestion` (`Pagination.tsx` lines 958-962): jump, clamped to the
valid range (an out-of-range request is ignored). -/
def goToQuestion (s : MockState) (questionIndex : ℕ) : MockState :=
  if questionIndex < s.testQuestions.length then
    { s with currentQuestionIndex := questionIndex }
  else s

/-- `previousQuestion` (`Pagination.tsx` lines 964-968). -/
def previousQuestion (s : MockState) : MockState :=
  if 0 < s.currentQuestionIndex then
    { s with currentQuestionIndex := s.currentQuestionIndex - 1 }
  else s

/-- `toggleFlag` (`Pagination.tsx` lines 929-939). -/
def toggleFlag (s : MockState) : MockState :=
  if s.currentQuestionIndex ∈ s.flaggedQuestions then
    { s with flaggedQuestions := s.flaggedQuestions.erase s.currentQuestionIndex }
  else
    { s with flaggedQuestions := insert s.currentQuestionIndex s.flaggedQuestions }

/-- `testAnswers.filter(answer => answer && answer.isCorrect).length`:
the number of correctly answered questions. -/
def countCorrect (s : MockState) : ℕ :=
  ((List.range s.testQuestions.length).filter (fun i =>
    match s.testAnswers i with
    | some ta => ta.isCorrect
    | none => false)).length

/-- One element of the `answersData` array built by `completeTest`
(`Pagination.tsx` lines 985-997): an absent or empty selection is recorded
with the sentinel `"SKIPPED"`; `timeTaken` is the even per-question split
of the total elapsed time (0 for questions with no recorded answer). -/
def answerDataFor (s : MockState) (timeSpent i : ℕ) (q : Question) : AnswerData :=
  match s.testAnswers i with
  | some answer =>
      { questionId := q.question_id
        userAnswer :=
          if 0 < answer.selectedAnswers.length then String.mk answer.selectedAnswers
          else "SKIPPED"
        isCorrect := answer.isCorrect
        timeTaken := timeSpent / s.testQuestions.length }
  | none =>
      { questionId := q.question_id, userAnswer := "SKIPPED"
        isCorrect := false, timeTaken := 0 }

/-- The full `answersData` array: one entry per session question. -/
def answersData (s : MockState) (timeSpent : ℕ) : List AnswerData :=
  s.testQuestions.enum.map (fun p => answerDataFor s timeSpent p.1 p.2)

/-- `completeTest` (`Pagination.tsx` lines 970-1015): mark the test
completed and not running, compute `score`, `timeSpent = (now -
testStartTime) / 1000` (ms to whole seconds) and the answers array, and
hand the submission to the progress service.  The remote call's outcome
does not feed back into this state (its failure is only logged). -/
def completeTest (s : MockState) (now : ℕ) : MockState :=
  let correctAnswers := countCorrect s
  let totalQuestions := s.testQuestions.length
  let timeSpent := (now - s.testStartTime) / 1000
  { s with
    isTestCompleted := true
    isTestStarted := false
    submitted := some
      { testId := s.testId
        score := correctAnswers
        totalQuestions := totalQuestions
        timeSpent := timeSpent
        answers := answersData s timeSpent } }

/-- One second of the timer effect (`Pagination.tsx` lines 851-863): while
started, not completed and `timeLeft > 0`, the scheduled timeout decrements
`timeLeft`; the effect then re-runs and, if the clock hit 0, forces
`completeTest`.  On a state that is already at 0 the effect completes
directly; in every other state (not started, or already completed) the
effect is a no-op. -/
def tick (s : MockState) (now : ℕ) : MockState :=
  if s.isTestStarted = true ∧ 0 < s.timeLeft ∧ s.isTestCompleted = false then
    let s1 := { s with timeLeft := s.timeLeft - 1 }
    if s1.timeLeft = 0 then completeTest s1 now else s1
  else if s.timeLeft = 0 ∧ s.isTestStarted = true ∧ s.isTestCompleted = false then
    completeTest s now
  else s

lemma tick_countdown (now : ℕ) :
    ∀ (n : ℕ) (s : MockState), s.isTestStarted = true → s.isTestCompleted = false →
      s.timeLeft = n → 1 ≤ n →
      (fun st => tick st now)^[n] s = completeTest { s with timeLeft := 0 } now := by
  intro n
  induction n with
  | zero => intro s _ _ _ h; exact absurd h (by norm_num)
  | succ m ih =>
    intro s hs hc ht _
    rw [Function.iterate_succ_apply]
    rcases Nat.eq_zero_or_pos m with hm | hm
    · subst hm
      have h1 : tick s now = completeTest { s with timeLeft := 0 } now := by
        unfold tick
        rw [if_pos ⟨hs, by omega, hc⟩]
        have h2 : s.timeLeft - 1 = 0 := by omega
        simp [h2]
      rw [Function.iterate_zero_apply, h1]
    · have h1 : tick s now = { s with timeLeft := m } := by
        unfold tick
        rw [if_pos ⟨hs, by omega, hc⟩]
        have h2 : s.timeLeft - 1 = m := by omega
        simp only [h2]
        rw [if_neg (by omega)]
      rw [h1]
      exact ih { s with timeLeft := m } hs hc rfl hm

/-- C2: a mock session started with `timeLeft = n` (`n ≥ 1`) on which the
user takes no action is forced into the completed state after `n`
one-second ticks — regardless of the cursor position — and the submitted
answers array has one entry per session question, each carrying the
`"SKIPPED"` sentinel with `isCorrect = false`. -/
theorem mock_timer_forced_completion (s : MockState) (now n : ℕ)
    (hstart : s.isTestStarted = true) (hcomp : s.isTestCompleted = false)
    (htime : s.timeLeft = n) (hn : 1 ≤ n)
    (hanswers : ∀ i, s.testAnswers i = none) :
    ((fun st => tick st now)^[n] s).isTestCompleted = true ∧
    ((fun st => tick st now)^[n] s).isTestStarted = false ∧
    ∃ sub : MockSubmission,
      ((fun st => tick st now)^[n] s).submitted = some sub ∧
      sub.answers.length = s.testQuestions.length ∧
      ∀ a ∈ sub.answers, a.userAnswer = "SKIPPED" ∧ a.isCorrect = false := by
  rw [tick_countdown now n s hstart hcomp htime hn]
  refine ⟨rfl, rfl, ?_⟩
  refine ⟨_, rfl, ?_, ?_⟩
  · simp [completeTest, answersData]
  · intro a ha
    simp only [completeTest, answersData] at ha
    obtain ⟨p, hp, rfl⟩ := List.mem_map.mp ha
    simp [answerDataFor, hanswers p.1]

/-- A concrete one-question mock session used by the witnesses. -/
def sampleQuestion : Question :=
  { question_id := "q1", question_text := "Which one?",
    choices := [('A', "first"), ('B', "second")], correct_answer := "A" }

/-- A concrete started mock-session state with a 2-second clock and no
recorded answers. -/
def sampleMockState : MockState :=
  { testId := "test-1"
    testQuestions := [sampleQuestion]
    currentQuestionIndex := 0
    testAnswers := fun _ => none
    shuffledChoicesMap := fun _ => []
    flaggedQuestions := ∅
    skippedQuestions := ∅
    timeLeft := 2
    isTestStarted := true
    isTestCompleted := false
    showResults := false
    testStartTime := 0
    submitted := none }

/-- Witness for C2: two ticks on the concrete 2-second session complete it
with one SKIPPED entry. -/
theorem mock_timer_forced_completion_witness :
    ((fun st => tick st 5000)^[2] sampleMockState).isTestCompleted = true ∧
    ((fun st => tick st 5000)^[2] sampleMockState).isTestStarted = false ∧
    ∃ sub : MockSubmission,
      ((fun st => tick st 5000)^[2] sampleMockState).submitted = some sub ∧
      sub.answers.length = sampleMockState.testQuestions.length ∧
      ∀ a ∈ sub.answers, a.userAnswer = "SKIPPED" ∧ a.isCorrect = false :=
  mock_timer_forced_completion sampleMockState 5000 2 rfl rfl rfl (by norm_num)
    (fun _ => rfl)

/-- A row of the `user_progress` table
(`server/database/init/01-schema.sql`), which carries
`UNIQUE(user_id, question_id, session_type)`. -/
structure ProgressRow where
  row_id : ℕ
  user_id : ℕ
  test_id : String
  question_id : String
  user_answer : String
  is_correct : Bool
  time_taken : ℕ
  session_type : String
  created_at : ℕ
deriving Repr, DecidableEq

/-- The conflict key of the `POST /study` upsert:
`(user_id, question_id, session_type = 'study')`. -/
def studyKey (userId : ℕ) (questionId : String) (r : ProgressRow) : Bool :=
  r.user_id == userId && r.question_id == questionId && r.session_type == "study"

/-- The `DO UPDATE SET` clause of the upsert: overwrite `user_answer`,
`is_correct`, `time_taken`, `created_at` on the conflicting row, leave
every other row alone. -/
def applyStudyUpdate (userAnswer : String) (isCorrect : Bool) (timeTaken now : ℕ)
    (K : ProgressRow → Bool) (r : ProgressRow) : ProgressRow :=
  if K r then
    { r with user_answer := userAnswer, is_correct := isCorrect,
             time_taken := timeTaken, created_at := now }
  else r

/-- `POST /study` (`server/routes/progress.js` lines 111-146):
`INSERT INTO user_progress ... ON CONFLICT (user_id, question_id,
session_type) DO UPDATE SET ...` with `session_type = 'study'`: insert a
fresh row when no row matches the key, otherwise update the matching
row(s) in place. -/
def saveStudyProgress (db : List ProgressRow) (newId userId : ℕ)
    (testId questionId userAnswer : String) (isCorrect : Bool)
    (timeTaken now : ℕ) : List ProgressRow :=
  if db.any (studyKey userId questionId) then
    db.map (applyStudyUpdate userAnswer isCorrect timeTaken now (studyKey userId questionId))
  else
    db ++ [{ row_id := newId, user_id := userId, test_id := testId,
             question_id := questionId, user_answer := userAnswer,
             is_correct := isCorrect, time_taken := timeTaken,
             session_type := "study", created_at := now }]

lemma studyKey_applyStudyUpdate (userId : ℕ) (questionId userAnswer : String)
    (isCorrect : Bool) (timeTaken now : ℕ) (r : ProgressRow) :
    studyKey userId questionId
      (applyStudyUpdate userAnswer isCorrect timeTaken now (studyKey userId questionId) r) =
    studyKey userId questionId r := by
  unfold applyStudyUpdate
  split <;> rfl

lemma filter_map_of_key_invariant (K : ProgressRow → Bool) (f : ProgressRow → ProgressRow)
    (hf : ∀ r, K (f r) = K r) :
    ∀ l : List ProgressRow, (l.map f).filter K = (l.filter K).map f := by
  intro l
  induction l with
  | nil => rfl
  | cons r t ih =>
    simp only [List.map_cons, List.filter_cons, hf r]
    cases hK : K r
    · simpa using ih
    · simpa using ih

lemma saveStudyProgress_filter (db : List ProgressRow) (newId userId : ℕ)
    (testId questionId userAnswer : String) (isCorrect : Bool) (timeTaken now : ℕ)
    (hwf : (db.filter (studyKey userId questionId)).length ≤ 1) :
    ∃ r : ProgressRow,
      (saveStudyProgress db newId userId testId questionId userAnswer isCorrect
          timeTaken now).filter (studyKey userId questionId) = [r] ∧
      r.user_answer = userAnswer ∧ r.is_correct = isCorrect ∧
      r.time_taken = timeTaken ∧ r.created_at = now := by
  unfold saveStudyProgress
  by_cases hany : db.any (studyKey userId questionId)
  · rw [if_pos hany]
    rw [filter_map_of_key_invariant _ _
      (studyKey_applyStudyUpdate userId questionId userAnswer isCorrect timeTaken now) db]
    have hpos : 0 < (db.filter (studyKey userId questionId)).length := by
      rcases List.any_eq_true.mp hany with ⟨r, hr, hKr⟩
      exact List.length_pos_of_mem (List.mem_filter.mpr ⟨hr, hKr⟩)
    have hone : (db.filter (studyKey userId questionId)).length = 1 := by omega
    obtain ⟨r0, hr0⟩ := List.length_eq_one.mp hone
    have hKr0 : studyKey userId questionId r0 = true := by
      have hmem : r0 ∈ db.filter (studyKey userId questionId) := by rw [hr0]; simp
      exact (List.mem_filter.mp hmem).2
    rw [hr0]
    refine ⟨applyStudyUpdate userAnswer isCorrect timeTaken now
      (studyKey userId questionId) r0, by simp, ?_⟩
    unfold applyStudyUpdate
    rw [if_pos hKr0]
    exact ⟨rfl, rfl, rfl, rfl⟩
  · rw [if_neg hany]
    have hnone : db.filter (studyKey userId questionId) = [] := by
      cases hfe : db.filter (studyKey userId questionId) with
      | nil => rfl
      | cons r t =>
        have hr : r ∈ db.filter (studyKey userId questionId) := by rw [hfe]; simp
        obtain ⟨hrdb, hKr⟩ := List.mem_filter.mp hr
        exact absurd (List.any_eq_true.mpr ⟨r, hrdb, hKr⟩) hany
    rw [List.filter_append, hnone]
    refine ⟨{ row_id := newId, user_id := userId, test_id := testId,
              question_id := questionId, user_answer := userAnswer,
              is_correct := isCorrect, time_taken := timeTaken,
              session_type := "study", created_at := now }, ?_, rfl, rfl, rfl, rfl⟩
    simp [studyKey]

/-- C4: saving study progress twice for the same `(user, questionId)` with
different values leaves exactly one stored `user_progress` record with the
study key, and that record carries the values of the latest call — the
resend overwrites, it does not duplicate. -/
theorem study_upsert_idempotent (db : List ProgressRow) (id1 id2 userId : ℕ)
    (testId questionId a1 a2 : String) (c1 c2 : Bool) (t1 t2 n1 n2 : ℕ)
    (hwf : (db.filter (studyKey userId questionId)).length ≤ 1) :
    ∃ r : ProgressRow,
      ((saveStudyProgress (saveStudyProgress db id1 userId testId questionId a1 c1 t1 n1)
          id2 userId testId questionId a2 c2 t2 n2).filter
            (studyKey userId questionId)) = [r] ∧
      r.user_answer = a2 ∧ r.is_correct = c2 ∧ r.time_taken = t2 := by
  obtain ⟨r1, h1, _⟩ :=
    saveStudyProgress_filter db id1 userId testId questionId a1 c1 t1 n1 hwf
  have hwf1 : ((saveStudyProgress db id1 userId testId questionId a1 c1 t1 n1).filter
      (studyKey userId questionId)).length ≤ 1 := by
    rw [h1]
    simp
  obtain ⟨r2, h2, ha, hc, ht, _⟩ :=
    saveStudyProgress_filter _ id2 userId testId questionId a2 c2 t2 n2 hwf1
  exact ⟨r2, h2, ha, hc, ht⟩

/-- Witness for C4: the empty table, answered "A" then re-answered "B". -/
theorem study_upsert_idempotent_witness :
    ∃ r : ProgressRow,
      ((saveStudyProgress (saveStudyProgress [] 1 7 "t1" "q1" "A" true 3 100)
          2 7 "t1" "q1" "B" false 5 200).filter (studyKey 7 "q1")) = [r] ∧
      r.user_answer = "B" ∧ r.is_correct = false ∧ r.time_taken = 5 :=
  study_upsert_idempotent [] 1 2 7 "t1" "q1" "A" "B" true false 3 5 100 200 (by simp)

/-- A row of `mock_test_results` (`01-schema.sql`). -/
structure MockResultRow where
  result_id : ℕ
  user_id : ℕ
  test_id : String
  score : ℕ
  total_questions : ℕ
  time_spent : ℕ
deriving Repr, DecidableEq

/-- A row of `mock_test_answers` (`01-schema.sql`). -/
structure MockAnswerRow where
  mock_test_result_id : ℕ
  question_id : String
  user_answer : String
  is_correct : Bool
  time_taken : ℕ
deriving Repr, DecidableEq

/-- The two tables touched by the `POST /mock-test` transaction. -/
structure ServerDB where
  mock_test_results : List MockResultRow
  mock_test_answers : List MockAnswerRow
  nextResultId : ℕ
deriving Repr, DecidableEq

/-- The committed `POST /mock-test` transaction
(`server/routes/progress.js` lines 260-309): inside `BEGIN`/`COMMIT`, one
insert into `mock_test_results` returning its id, then one insert into
`mock_test_answers` per element of the answers array. -/
def applyMockSave (db : ServerDB) (userId : ℕ) (sub : MockSubmission) : ServerDB :=
  { mock_test_results := db.mock_test_results ++
      [{ result_id := db.nextResultId, user_id := userId, test_id := sub.testId,
         score := sub.score, total_questions := sub.totalQuestions,
         time_spent := sub.timeSpent }]
    mock_test_answers := db.mock_test_answers ++
      sub.answers.map (fun a =>
        { mock_test_result_id := db.nextResultId, question_id := a.questionId,
          user_answer := a.userAnswer, is_correct := a.isCorrect,
          time_taken := a.timeTaken })
    nextResultId := db.nextResultId + 1 }

/-- `completeTest` followed by the remote save: `saveOk = true` models a
committed transaction, `saveOk = false` models any failure (network error
or `ROLLBACK`), after which the store is unchanged and the client only
logs the error. -/
def completeAndSave (s : MockState) (now userId : ℕ) (saveOk : Bool)
    (db : ServerDB) : MockState × ServerDB :=
  let s1 := completeTest s now
  match s1.submitted with
  | some sub => (s1, if saveOk then applyMockSave db userId sub else db)
  | none => (s1, db)

/-- C5: a mock session submits exactly once, at the in-progress-to-completed
transition, a single atomic unit — one session record with
`score = count(correct answers)` and `timeSpent = now - startTimestamp`
(milliseconds to whole seconds) plus one answer record per question — and
the client state after completion does not depend on whether the save
succeeded, so the locally computed score and review data stay usable and a
failed save leaves the store untouched; a completed session never ticks
into a second submission. -/
theorem mock_submission_once_atomic (s : MockState) (now userId : ℕ)
    (db : ServerDB) (saveOk : Bool) (hip : s.isTestStarted = true)
    (hcomp : s.isTestCompleted = false) :
    (∃ sub : MockSubmission,
      (completeTest s now).submitted = some sub ∧
      sub.score = countCorrect s ∧
      sub.timeSpent = (now - s.testStartTime) / 1000 ∧
      sub.totalQuestions = s.testQuestions.length ∧
      sub.answers.length = s.testQuestions.length) ∧
    (completeAndSave s now userId saveOk db).1 = completeTest s now ∧
    (completeAndSave s now userId saveOk db).1.testAnswers = s.testAnswers ∧
    countCorrect (completeAndSave s now userId saveOk db).1 = countCorrect s ∧
    (completeAndSave s now userId saveOk db).1.isTestCompleted = true ∧
    (completeAndSave s now userId false db).2 = db ∧
    ((completeAndSave s now userId true db).2.mock_test_results.length =
        db.mock_test_results.length + 1 ∧
      (completeAndSave s now userId true db).2.mock_test_answers.length =
        db.mock_test_answers.length + s.testQuestions.length) ∧
    (∀ m, tick (completeTest s now) m = completeTest s now) := by
  have hct : (completeTest s now).isTestCompleted = true := rfl
  refine ⟨⟨_, rfl, rfl, rfl, rfl, ?_⟩, rfl, rfl, rfl, rfl, rfl, ⟨?_, ?_⟩, ?_⟩
  · simp [answersData]
  · simp [completeAndSave, applyMockSave, completeTest]
  · simp [completeAndSave, applyMockSave, completeTest, answersData]
  · intro m
    unfold tick
    rw [if_neg (by simp [hct]), if_neg (by simp [hct])]

/-- An empty store for the C5 witness. -/
def sampleServerDB : ServerDB :=
  { mock_test_results := [], mock_test_answers := [], nextResultId := 1 }

/-- Witness for C5 on the concrete started one-question session. -/
theorem mock_submission_once_atomic_witness :
    (∃ sub : MockSubmission,
      (completeTest sampleMockState 5000).submitted = some sub ∧
      sub.score = countCorrect sampleMockState ∧
      sub.timeSpent = (5000 - sampleMockState.testStartTime) / 1000 ∧
      sub.totalQuestions = sampleMockState.testQuestions.length ∧
      sub.answers.length = sampleMockState.testQuestions.length) ∧
    (completeAndSave sampleMockState 5000 7 true sampleServerDB).1 =
      completeTest sampleMockState 5000 ∧
    (completeAndSave sampleMockState 5000 7 true sampleServerDB).1.testAnswers =
      sampleMockState.testAnswers ∧
    countCorrect (completeAndSave sampleMockState 5000 7 true sampleServerDB).1 =
      countCorrect sampleMockState ∧
    (completeAndSave sampleMockState 5000 7 true sampleServerDB).1.isTestCompleted = true ∧
    (completeAndSave sampleMockState 5000 7 false sampleServerDB).2 = sampleServerDB ∧
    ((completeAndSave sampleMockState 5000 7 true sampleServerDB).2.mock_test_results.length =
        sampleServerDB.mock_test_results.length + 1 ∧
      (completeAndSave sampleMockState 5000 7 true sampleServerDB).2.mock_test_answers.length =
        sampleServerDB.mock_test_answers.length + sampleMockState.testQuestions.length) ∧
    (∀ m, tick (completeTest sampleMockState 5000) m = completeTest sampleMockState 5000) :=
  mock_submission_once_atomic sampleMockState 5000 7 sampleServerDB true rfl rfl

lemma nextQuestion_frame (s : MockState) :
    (nextQuestion s).testQuestions = s.testQuestions ∧
    (nextQuestion s).testAnswers = s.testAnswers ∧
    (nextQuestion s).shuffledChoicesMap = s.shuffledChoicesMap := by
  unfold nextQuestion
  split <;> (refine ⟨?_, ?_, ?_⟩ <;> (dsimp only; split <;> rfl))

lemma answersData_getElem? (s : MockState) (ts i : ℕ) :
    (answersData s ts)[i]? =
      (s.testQuestions[i]?).map (fun q => answerDataFor s ts i q) := by
  unfold answersData
  rw [List.getElem?_map, List.getElem?_enum]
  cases s.testQuestions[i]? <;> rfl

/-- C6: in a mock session, advancing the cursor past a question with no
recorded answer puts its index into the skipped set; coming back and
answering it with a non-empty selection removes it from the skipped set,
and the final submission records the concatenation of the selected labels
for that question, not the `"SKIPPED"` sentinel. -/
theorem skip_then_answer (s : MockState) (sel : List Char) (now : ℕ)
    (hidx : s.currentQuestionIndex < s.testQuestions.length)
    (hnoans : s.testAnswers s.currentQuestionIndex = none)
    (hsel : sel ≠ []) :
    s.currentQuestionIndex ∈ (nextQuestion s).skippedQuestions ∧
    s.currentQuestionIndex ∉
      (handleAnswer (goToQuestion (nextQuestion s) s.currentQuestionIndex)
        sel).skippedQuestions ∧
    ∃ sub : MockSubmission,
      (completeTest (handleAnswer (goToQuestion (nextQuestion s) s.currentQuestionIndex)
          sel) now).submitted = some sub ∧
      ∃ a : AnswerData, sub.answers[s.currentQuestionIndex]? = some a ∧
        a.userAnswer = String.mk sel := by
  have hna : hasNonemptyAnswerAt s s.currentQuestionIndex = false := by
    unfold hasNonemptyAnswerAt
    rw [hnoans]
  have hskip1 : (nextQuestion s).skippedQuestions =
      insert s.currentQuestionIndex s.skippedQuestions := by
    unfold nextQuestion
    rw [hna]
    simp only [Bool.false_eq_true, if_false]
    split <;> rfl
  obtain ⟨hq1, _, _⟩ := nextQuestion_frame s
  have hgo : goToQuestion (nextQuestion s) s.currentQuestionIndex =
      { nextQuestion s with currentQuestionIndex := s.currentQuestionIndex } := by
    unfold goToQuestion
    rw [if_pos]
    rw [hq1]
    exact hidx
  have hpos : 0 < sel.length := List.length_pos.mpr hsel
  refine ⟨?_, ?_, ?_⟩
  · rw [hskip1]
    exact Finset.mem_insert_self _ _
  · rw [hgo]
    unfold handleAnswer
    rw [if_pos hpos]
    exact Finset.not_mem_erase _ _
  · rw [hgo]
    refine ⟨_, rfl, ?_⟩
    have hq2 : (handleAnswer
        { nextQuestion s with currentQuestionIndex := s.currentQuestionIndex }
        sel).testQuestions = s.testQuestions := by
      unfold handleAnswer
      split <;> exact hq1
    have hans2 : (handleAnswer
        { nextQuestion s with currentQuestionIndex := s.currentQuestionIndex }
        sel).testAnswers s.currentQuestionIndex =
        some { questionIndex := s.currentQuestionIndex
               selectedAnswers := sel
               isCorrect := scoreAnswer sel
                 (((nextQuestion s).testQuestions.getD s.currentQuestionIndex
                   default).correct_answer.toList)
               question := (nextQuestion s).testQuestions.getD
                 s.currentQuestionIndex default
               shuffledChoices := (nextQuestion s).shuffledChoicesMap
                 s.currentQuestionIndex } := by
      unfold handleAnswer
      split <;> simp
    rw [answersData_getElem?, hq2]
    rw [List.getElem?_eq_getElem hidx]
    refine ⟨_, rfl, ?_⟩
    unfold answerDataFor
    rw [hans2]
    simp [hpos]

/-- Witness for C6: skipping then answering question 0 of the concrete
session. -/
theorem skip_then_answer_witness :
    sampleMockState.currentQuestionIndex ∈
      (nextQuestion sampleMockState).skippedQuestions ∧
    sampleMockState.currentQuestionIndex ∉
      (handleAnswer (goToQuestion (nextQuestion sampleMockState)
        sampleMockState.currentQuestionIndex) ['A']).skippedQuestions ∧
    ∃ sub : MockSubmission,
      (completeTest (handleAnswer (goToQuestion (nextQuestion sampleMockState)
          sampleMockState.currentQuestionIndex) ['A']) 9000).submitted = some sub ∧
      ∃ a : AnswerData, sub.answers[sampleMockState.currentQuestionIndex]? = some a ∧
        a.userAnswer = String.mk ['A'] :=
  skip_then_answer sampleMockState ['A'] 9000 (by decide) rfl (by decide)

/-- StudyMode's `choicesArray` (`Pagination.tsx` lines 256-259):
`Object.entries(question.choices).map(([key, value]) => ({key, value}))` —
note: no filtering of empty texts. -/
def choicesArrayStudy (q : Question) : List ShuffledChoice :=
  q.choices.map (fun p => { key := p.1, value := p.2 })

/-- JavaScript's `String.prototype.trim`: drop whitespace from both ends.
(A list-based model of the library function, kernel-computable.) -/
def strTrim (s : String) : String :=
  String.mk ((((s.toList.dropWhile Char.isWhitespace).reverse).dropWhile
    Char.isWhitespace).reverse)

/-- The filtered choices array used by `QuestionCard.tsx` (lines 119-129)
and by `initializeTest` in the MockTest component (lines 815-833): only
entries whose text is non-empty after trimming. -/
def choicesArrayFiltered (q : Question) : List ShuffledChoice :=
  (q.choices.filter (fun p => decide (0 < (strTrim p.2).length))).map
    (fun p => { key := p.1, value := p.2 })

/-- The ordering bound to a question by `initializeTest` (MockTest) and by
the `QuestionCard` effect: if some choice text survives trimming
(`hasValidChoices`), shuffle the filtered entries; otherwise the empty
list. -/
def mockChoicesFor (rand : ℕ → ℕ) (q : Question) : List ShuffledChoice :=
  if q.choices.any (fun p => decide (0 < (strTrim p.2).length)) then
    shuffleArray rand (choicesArrayFiltered q)
  else []

/-- The StudyMode shuffled-choices effect (`Pagination.tsx` lines 248-272)
for the page of `pageLen` questions starting at `startIndex`: an index that
already has an ordering keeps it (`if (!shuffledChoices[questionIndex])`),
a missing in-page index receives a fresh shuffle of ALL its choice
entries (StudyMode does not filter empty choices), and out-of-page indices
stay absent. -/
def studyInitChoices (shuffle : List ShuffledChoice → List ShuffledChoice)
    (questions : List Question) (startIndex pageLen : ℕ)
    (m : ℕ → Option (List ShuffledChoice)) : ℕ → Option (List ShuffledChoice) :=
  fun k =>
    match m k with
    | some v => some v
    | none =>
        if startIndex ≤ k ∧ k < startIndex + pageLen then
          (questions[k]?).map (fun q => shuffle (choicesArrayStudy q))
        else none

/-- `initializeTest` (`Pagination.tsx` lines 809-844): draw a fresh random
subset of `questionCount` questions, rebuild the choices map, reset the
cursor, answers, timer and lifecycle flags.  `randQ` drives the question
shuffle and `randC i` the choice shuffle of question `i`.  The flagged and
skipped sets are NOT touched (the source has no
`setFlaggedQuestions`/`setSkippedQuestions` call here). -/
def initializeTest (randQ : ℕ → ℕ) (randC : ℕ → ℕ → ℕ) (questions : List Question)
    (questionCount : ℕ) (s : MockState) : MockState :=
  let selectedQuestions := (shuffleArray randQ questions).take questionCount
  { s with
    testQuestions := selectedQuestions
    shuffledChoicesMap := fun i =>
      match selectedQuestions[i]? with
      | some q => mockChoicesFor (randC i) q
      | none => []
    currentQuestionIndex := 0
    testAnswers := fun _ => none
    timeLeft := calculateTimeLimit questionCount
    isTestStarted := false
    isTestCompleted := false
    showResults := false
    submitted := none }

/-- The summary counters of `getCurrentProgress` (`Pagination.tsx` lines
880-895). -/
structure ProgressCounters where
  answered : ℕ
  skipped : ℕ
  flagged : ℕ
  total : ℕ
deriving Repr, DecidableEq

/-- `getCurrentProgress`: answered = recorded non-empty answers, skipped
and flagged = sizes of the respective sets. -/
def getCurrentProgress (s : MockState) : ProgressCounters :=
  { answered := ((List.range s.testQuestions.length).filter
      (fun i => hasNonemptyAnswerAt s i)).length
    skipped := s.skippedQuestions.card
    flagged := s.flaggedQuestions.card
    total := s.testQuestions.length }

/-- C7: the choice ordering of a (session, questionIndex) pair is created
once and never changes afterwards.  In the mock session no transition
(answering, navigation, flagging, timer tick, completion) touches
`shuffledChoicesMap`; the review view reads the ordering stored by
`handleAnswer`, which is exactly the map entry; and the StudyMode effect
preserves every ordering that already exists when it re-runs. -/
theorem shuffled_choices_stable (s : MockState) (sel : List Char) (i now : ℕ)
    (shuffle : List ShuffledChoice → List ShuffledChoice)
    (questions : List Question) (startIndex pageLen k : ℕ)
    (m : ℕ → Option (List ShuffledChoice)) (v : List ShuffledChoice)
    (hk : m k = some v) :
    (handleAnswer s sel).shuffledChoicesMap = s.shuffledChoicesMap ∧
    (nextQuestion s).shuffledChoicesMap = s.shuffledChoicesMap ∧
    (previousQuestion s).shuffledChoicesMap = s.shuffledChoicesMap ∧
    (goToQuestion s i).shuffledChoicesMap = s.shuffledChoicesMap ∧
    (toggleFlag s).shuffledChoicesMap = s.shuffledChoicesMap ∧
    (tick s now).shuffledChoicesMap = s.shuffledChoicesMap ∧
    (completeTest s now).shuffledChoicesMap = s.shuffledChoicesMap ∧
    ((handleAnswer s sel).testAnswers s.currentQuestionIndex).map
        TestAnswer.shuffledChoices =
      some (s.shuffledChoicesMap s.currentQuestionIndex) ∧
    studyInitChoices shuffle questions startIndex pageLen m k = some v := by
  refine ⟨?_, (nextQuestion_frame s).2.2, ?_, ?_, ?_, ?_, rfl, ?_, ?_⟩
  · unfold handleAnswer
    split <;> rfl
  · unfold previousQuestion
    split <;> rfl
  · unfold goToQuestion
    split <;> rfl
  · unfold toggleFlag
    split <;> rfl
  · unfold tick
    split
    · dsimp only
      split <;> rfl
    · split <;> rfl
  · unfold handleAnswer
    split <;> simp
  · unfold studyInitChoices
    rw [hk]

/-- Witness for C7 on the concrete session and a concrete one-entry study
map. -/
theorem shuffled_choices_stable_witness :
    (handleAnswer sampleMockState ['A']).shuffledChoicesMap =
      sampleMockState.shuffledChoicesMap ∧
    (nextQuestion sampleMockState).shuffledChoicesMap =
      sampleMockState.shuffledChoicesMap ∧
    (previousQuestion sampleMockState).shuffledChoicesMap =
      sampleMockState.shuffledChoicesMap ∧
    (goToQuestion sampleMockState 0).shuffledChoicesMap =
      sampleMockState.shuffledChoicesMap ∧
    (toggleFlag sampleMockState).shuffledChoicesMap =
      sampleMockState.shuffledChoicesMap ∧
    (tick sampleMockState 1000).shuffledChoicesMap =
      sampleMockState.shuffledChoicesMap ∧
    (completeTest sampleMockState 1000).shuffledChoicesMap =
      sampleMockState.shuffledChoicesMap ∧
    ((handleAnswer sampleMockState ['A']).testAnswers
        sampleMockState.currentQuestionIndex).map TestAnswer.shuffledChoices =
      some (sampleMockState.shuffledChoicesMap sampleMockState.currentQuestionIndex) ∧
    studyInitChoices id [sampleQuestion] 0 1
      (fun _ => some [{ key := 'A', value := "first" }]) 0 =
      some [{ key := 'A', value := "first" }] :=
  shuffled_choices_stable sampleMockState ['A'] 0 1000 id [sampleQuestion] 0 1 0
    (fun _ => some [{ key := 'A', value := "first" }])
    [{ key := 'A', value := "first" }] rfl

/-- A question with one valid choice and one choice that is empty after
trimming. -/
def emptyChoiceQuestion : Question :=
  { question_id := "q-empty", question_text := "text",
    choices := [('A', "Valid option"), ('B', " ")], correct_answer := "A" }

/-- Counterexample to C9 as stated: in StudyMode (one mode of the system)
the presented ordering of `emptyChoiceQuestion` contains the choice
`('B', " ")` whose text is empty after trimming — StudyMode's
`choicesArray` has no emptiness filter, unlike MockTest and QuestionCard. -/
theorem study_mode_presents_empty_choice :
    ∃ v, studyInitChoices (shuffleArray (fun _ => 0)) [emptyChoiceQuestion] 0 1
        (fun _ => none) 0 = some v ∧
      { key := 'B', value := " " } ∈ v ∧ strTrim " " = "" := by
  refine ⟨_, rfl, ?_, ?_⟩ <;> decide

/-- C9 (amended): the orderings built by MockTest's `initializeTest` and by
`QuestionCard` exclude every choice whose text is empty after trimming, but
StudyMode's ordering is a shuffle of ALL the question's choice entries,
empty-after-trimming ones included. -/
theorem nonempty_choice_filtering (rand : ℕ → ℕ) (q : Question) :
    (∀ p ∈ mockChoicesFor rand q, strTrim p.value ≠ "") ∧
    (∀ (questions : List Question) (startIndex pageLen k : ℕ)
        (m : ℕ → Option (List ShuffledChoice)) (q' : Question),
      m k = none → startIndex ≤ k → k < startIndex + pageLen →
      questions[k]? = some q' →
      ∃ v, studyInitChoices (shuffleArray rand) questions startIndex pageLen m k =
          some v ∧ v.Perm (choicesArrayStudy q')) := by
  constructor
  · intro p hp
    unfold mockChoicesFor at hp
    split at hp
    · have hmem : p ∈ choicesArrayFiltered q :=
        ((shuffleArray_perm rand (choicesArrayFiltered q)).mem_iff).mp hp
      unfold choicesArrayFiltered at hmem
      obtain ⟨p0, hp0, hpe⟩ := List.mem_map.mp hmem
      obtain ⟨_, hpred⟩ := List.mem_filter.mp hp0
      have hlen : 0 < (strTrim p0.2).length := of_decide_eq_true hpred
      subst hpe
      intro hcontr
      simp only at hcontr
      rw [hcontr] at hlen
      simp at hlen
    · simp at hp
  · intro questions startIndex pageLen k m q' hm h1 h2 hq
    unfold studyInitChoices
    rw [hm, if_pos ⟨h1, h2⟩, hq]
    exact ⟨_, rfl, shuffleArray_perm rand (choicesArrayStudy q')⟩

/-- Witness for the amended C9: the study ordering of the concrete
empty-choice question is a permutation of all its entries. -/
theorem nonempty_choice_filtering_witness :
    ∃ v, studyInitChoices (shuffleArray (fun _ => 1)) [emptyChoiceQuestion] 0 1
        (fun _ => none) 0 = some v ∧ v.Perm (choicesArrayStudy emptyChoiceQuestion) :=
  (nonempty_choice_filtering (fun _ => 1) emptyChoiceQuestion).2
    [emptyChoiceQuestion] 0 1 0 (fun _ => none) emptyChoiceQuestion rfl
    (by norm_num) (by norm_num) rfl

/-- C10: restarting a mock session (`initializeTest`) re-draws the question
subset and resets choice orderings, cursor, answers, timer and lifecycle
flags, but leaves `flaggedQuestions` and `skippedQuestions` unchanged, so
the prior attempt's flag and skip marks flow into `getCurrentProgress` of
the fresh session. -/
theorem restart_preserves_flags_and_skips (randQ : ℕ → ℕ) (randC : ℕ → ℕ → ℕ)
    (questions : List Question) (questionCount : ℕ) (s : MockState) :
    (initializeTest randQ randC questions questionCount s).flaggedQuestions =
      s.flaggedQuestions ∧
    (initializeTest randQ randC questions questionCount s).skippedQuestions =
      s.skippedQuestions ∧
    (initializeTest randQ randC questions questionCount s).currentQuestionIndex = 0 ∧
    (∀ i, (initializeTest randQ randC questions questionCount s).testAnswers i = none) ∧
    (initializeTest randQ randC questions questionCount s).timeLeft =
      calculateTimeLimit questionCount ∧
    (initializeTest randQ randC questions questionCount s).isTestStarted = false ∧
    (initializeTest randQ randC questions questionCount s).isTestCompleted = false ∧
    (initializeTest randQ randC questions questionCount s).showResults = false ∧
    (initializeTest randQ randC questions questionCount s).testQuestions =
      (shuffleArray randQ questions).take questionCount ∧
    (getCurrentProgress (initializeTest randQ randC questions questionCount s)).flagged =
      s.flaggedQuestions.card ∧
    (getCurrentProgress (initializeTest randQ randC questions questionCount s)).skipped =
      s.skippedQuestions.card :=
  ⟨rfl, rfl, rfl, fun _ => rfl, rfl, rfl, rfl, rfl, rfl, rfl, rfl⟩
